import Mathlib

/-!
Shallow embedding of the two-player game subsystem of the application:
the `game_rooms` row (data model), room creation and the guarded join
update, the Tic-Tac-Toe and Rock-Paper-Scissors client state machines,
and the statistics updates, translated from the React/Supabase source
(`Games`, `TicTacToe`, `RockPaperScissors` components).
-/

namespace APP

/-- A Tic-Tac-Toe mark, the strings "X" and "O" of the source. -/
inductive Symbol where
  | X
  | O
deriving DecidableEq, Repr

/-- `currentTurn === 'X' ? 'O' : 'X'` — the turn flip in `handleClick`. -/
def Symbol.flip : Symbol → Symbol
  | .X => .O
  | .O => .X

/-- A Rock-Paper-Scissors choice, the strings 'rock' / 'paper' / 'scissors'. -/
inductive RPS where
  | rock
  | paper
  | scissors
deriving DecidableEq, Repr

/-- The `winConditions` record of the source: maps each choice to the
choice it beats (`rock: 'scissors', paper: 'rock', scissors: 'paper'`). -/
def winConditions : RPS → RPS
  | .rock => .scissors
  | .paper => .rock
  | .scissors => .paper

/-- The `game_type` column: 'tic_tac_toe' or 'rock_paper_scissors'. -/
inductive GType where
  | tic_tac_toe
  | rock_paper_scissors
deriving DecidableEq, Repr

/-- The `status` column: 'waiting' / 'in_progress' / 'completed' / 'cancelled'. -/
inductive Status where
  | waiting
  | in_progress
  | completed
  | cancelled
deriving DecidableEq, Repr

/-- The 9-cell Tic-Tac-Toe board (`(string | null)[]` of length 9). -/
abbrev Board := Fin 9 → Option Symbol

/-- The `game_state` jsonb payload, read through the shape each game client
gives it: `{ board, currentTurn }` for Tic-Tac-Toe and
`{ player1Choice?, player2Choice? }` for Rock-Paper-Scissors. -/
inductive GState where
  | ttt (board : Board) (currentTurn : Symbol)
  | rps (player1Choice player2Choice : Option RPS)
deriving DecidableEq

/-- A `game_rooms` row. User identifiers are opaque; timestamps carry no
game logic and are omitted. -/
structure Room where
  player1_id : Nat
  player2_id : Option Nat
  game_type : GType
  gstate : GState
  status : Status
  winner_id : Option Nat
deriving DecidableEq

/-- The default interpretation each client gives the freshly inserted empty
`game_state` payload: Tic-Tac-Toe mounts with `Array(9).fill(null)` and
`currentTurn = 'X'`; Rock-Paper-Scissors reads both choice slots as absent. -/
def initState : GType → GState
  | .tic_tac_toe => .ttt (fun _ => none) .X
  | .rock_paper_scissors => .rps none none

/-- `createRoom`: inserts a row with `player1_id` the creator,
`status: 'waiting'`, and the schema defaults (`player2_id` null,
`winner_id` null, empty `game_state`). -/
def createRoom (gt : GType) (creator : Nat) : Room :=
  { player1_id := creator
    player2_id := none
    game_type := gt
    gstate := initState gt
    status := .waiting
    winner_id := none }

/-- The conditional update issued by `joinRoom`: set `player2_id` and
`status: 'in_progress'` where `id = room.id` and `player2_id` is still
null; `none` means the predicate matched no row (zero affected rows). -/
def joinRoomCond (db : Room) (joiner : Nat) : Option Room :=
  if db.player2_id = none then
    some { db with player2_id := some joiner, status := .in_progress }
  else
    none

/-- What `joinRoom` surfaces to the user: success, the early client-side
rejections (own room; a room seen as already full, with a list refresh),
or the zero-rows conflict (alert plus list refresh). -/
inductive JoinSignal where
  | joined
  | rejectedOwnRoom
  | rejectedFullRefresh
  | conflictRefresh
deriving DecidableEq, Repr

/-- `joinRoom(room)`: client guards against joining one's own room and
against a room already seen as full, then the conditional update against
the current database row; returns the resulting database row and the
signal shown to the caller. -/
def joinRoomClient (seen db : Room) (u : Nat) : Room × JoinSignal :=
  if u = seen.player1_id then
    (db, .rejectedOwnRoom)
  else if seen.player2_id.isSome then
    (db, .rejectedFullRefresh)
  else
    match joinRoomCond db u with
    | some r => (r, .joined)
    | none => (db, .conflictRefresh)

/-- The eight winning lines of `checkWinner`: 3 rows, 3 columns, 2 diagonals. -/
def ticLines : List (Fin 9 × Fin 9 × Fin 9) :=
  [(0, 1, 2), (3, 4, 5), (6, 7, 8),
   (0, 3, 6), (1, 4, 7), (2, 5, 8),
   (0, 4, 8), (2, 4, 6)]

/-- One iteration of the `checkWinner` loop: the line's symbol when
`squares[a] && squares[a] === squares[b] && squares[a] === squares[c]`. -/
def lineHit (b : Board) (t : Fin 9 × Fin 9 × Fin 9) : Option Symbol :=
  match b t.1 with
  | some s => if b t.2.1 = some s ∧ b t.2.2 = some s then some s else none
  | none => none

/-- `checkWinner(squares)`: the first of the eight lines holding three equal
non-empty symbols, if any. -/
def checkWinner (b : Board) : Option Symbol :=
  ticLines.findSome? (lineHit b)

/-- The body of `handleClick` once the `game_state` has been read as a board
and a turn: the rejection guards (occupied cell or recorded winner, not the
caller's turn with player1 playing "X" and everyone else "O", room not
in progress), then the move write with the terminal check. -/
def tttStep (room : Room) (b : Board) (t : Symbol) (u : Nat) (i : Fin 9) : Room :=
  if (b i).isSome ∨ room.winner_id.isSome then room
  else if (t = .X ∧ u ≠ room.player1_id) ∨ (t = .O ∧ u = room.player1_id) then room
  else if room.status ≠ .in_progress then room
  else
    let nb : Board := Function.update b i (some t)
    match checkWinner nb with
    | some s =>
        { room with
            gstate := .ttt nb t.flip
            status := .completed
            winner_id := if s = .X then some room.player1_id else room.player2_id }
    | none =>
        if ∀ j, (nb j).isSome then
          { room with gstate := .ttt nb t.flip, status := .completed }
        else
          { room with gstate := .ttt nb t.flip }

/-- `handleClick(index)` of the Tic-Tac-Toe component, acting on a client
fully synchronised with the room row. -/
def handleClick (room : Room) (u : Nat) (i : Fin 9) : Room :=
  match room.gstate with
  | .ttt b t => tttStep room b t u i
  | .rps _ _ => room

/-- The update object built by `makeChoice` once the caller's write is
accepted: the caller's slot is set (spreading the other slot through), and
when the opponent's slot is already populated the same write also sets
`status: 'completed'` and, for distinct choices, `winner_id` from
`winConditions`. -/
def rpsWrite (room : Room) (p1c p2c : Option RPS) (u : Nat) (c : RPS) : Room :=
  let newState : GState :=
    if u = room.player1_id then .rps (some c) p2c else .rps p1c (some c)
  match (if u = room.player1_id then p2c else p1c) with
  | none => { room with gstate := newState }
  | some oc =>
      let p1C : RPS := if u = room.player1_id then c else oc
      let p2C : RPS := if u = room.player1_id then oc else c
      if p1C = p2C then
        { room with gstate := newState, status := .completed }
      else
        { room with
            gstate := newState
            status := .completed
            winner_id :=
              if winConditions p1C = p2C then some room.player1_id
              else room.player2_id }

/-- `makeChoice(choice)`: rejected with no write when the caller has already
chosen (`myChoice` set); otherwise the room update of `rpsWrite`. The
component is only mounted on rock-paper-scissors rooms, so a board-shaped
payload produces no write. -/
def makeChoice (room : Room) (myChoice : Option RPS) (u : Nat) (c : RPS) : Option Room :=
  if myChoice.isSome then none
  else
    match room.gstate with
    | .rps p1c p2c => some (rpsWrite room p1c p2c u c)
    | .ttt _ _ => none

/-- The `myChoice` local state of a client synchronised with the room: the
caller's own persisted slot (player1's slot when the caller is player1,
player2's slot otherwise). -/
def myChoiceOf (room : Room) (u : Nat) : Option RPS :=
  match room.gstate with
  | .rps p1c p2c => if u = room.player1_id then p1c else p2c
  | .ttt _ _ => none

/-- A `user_activity_stats` row restricted to the two game counters. -/
structure Stats where
  games_played : Nat
  games_won : Nat
deriving DecidableEq, Repr

/-- `updateStats(won)` (identical in both game components): read the current
counters and upsert `games_played + 1` and `games_won + (won ? 1 : 0)`. -/
def updateStats (s : Stats) (won : Bool) : Stats :=
  { games_played := s.games_played + 1
    games_won := s.games_won + (if won then 1 else 0) }

/-- The stats effect of the Tic-Tac-Toe `postgres_changes` handler on a
received row: when `updated.winner_id` is non-null it runs
`updateStats(updated.winner_id === user.id)`; otherwise no stats write. -/
def tttOnUpdateStats (updated : Room) (u : Nat) (s : Stats) : Stats :=
  match updated.winner_id with
  | some w => updateStats s (w = u)
  | none => s

/-- The stats effect of the Rock-Paper-Scissors handler on a received row:
on `status === 'completed'` it runs `determineWinner`, which returns early
unless both choices are present, runs `updateStats(false)` on a draw, and
otherwise `updateStats(iWon)` with
`iWon = (isPlayer1 && player1Wins) || (!isPlayer1 && !player1Wins)`. -/
def rpsOnUpdateStats (updated : Room) (u : Nat) (s : Stats) : Stats :=
  if updated.status = .completed then
    match updated.gstate with
    | .rps (some p1c) (some p2c) =>
        if p1c = p2c then updateStats s false
        else
          updateStats s
            (decide ((u = updated.player1_id ∧ winConditions p1c = p2c) ∨
              (u ≠ updated.player1_id ∧ winConditions p1c ≠ p2c)))
    | _ => s
  else s

/-- The win-rate percentage of the `Games` dashboard:
`stats.played > 0 ? Math.round((stats.won / stats.played) * 100) : 0`. -/
def winRate (played won : Nat) : ℤ :=
  if 0 < played then round ((won : ℚ) / (played : ℚ) * 100) else 0

/-- The board a client shows for a room (the mount default — an empty
board — when the payload is not board-shaped). -/
def tttBoardOf (r : Room) : Board :=
  match r.gstate with
  | .ttt b _ => b
  | .rps _ _ => fun _ => none

/-- The turn a client shows for a room (`game_state.currentTurn || 'X'`). -/
def tttTurnOf (r : Room) : Symbol :=
  match r.gstate with
  | .ttt _ t => t
  | .rps _ _ => .X

/-- Number of marked cells of a board. -/
def markCount (b : Board) : Nat :=
  (Finset.univ.filter fun j => (b j).isSome).card

/-- The opponent's choice slot as seen by user `u`
(`isPlayer1 ? game_state.player2Choice : game_state.player1Choice`). -/
def otherChoiceOf (room : Room) (u : Nat) : Option RPS :=
  match room.gstate with
  | .rps p1c p2c => if u = room.player1_id then p2c else p1c
  | .ttt _ _ => none

/-- The game-specific terminal check found a decisive (non-draw) outcome
and `winner_id` names the corresponding player: for Tic-Tac-Toe a winning
line whose symbol's owner is the winner (player1 owns "X", player2 "O");
for Rock-Paper-Scissors two distinct recorded choices whose dominator per
`winConditions` is the winner. -/
def decisiveOutcome (r : Room) : Prop :=
  match r.gstate with
  | .ttt b _ =>
      ∃ s, checkWinner b = some s ∧
        r.winner_id = (if s = .X then some r.player1_id else r.player2_id)
  | .rps p1c p2c =>
      ∃ c1 c2, p1c = some c1 ∧ p2c = some c2 ∧ c1 ≠ c2 ∧
        r.winner_id =
          (if winConditions c1 = c2 then some r.player1_id else r.player2_id)

/-- One room-changing operation, as invokable through the UI: a join
attempt by a non-creator (the conditional update leaving the row unchanged
on conflict), a Tic-Tac-Toe click, or a Rock-Paper-Scissors choice by a
synchronised client (moves require the opponent present, since both game
components render only the waiting screen while `player2_id` is null). -/
inductive Step : Room → Room → Prop
  | join (r : Room) (u : Nat) (hu : u ≠ r.player1_id) :
      Step r ((joinRoomCond r u).getD r)
  | tttMove (r : Room) (u : Nat) (i : Fin 9) (hp2 : r.player2_id.isSome) :
      Step r (handleClick r u i)
  | rpsMove (r : Room) (u : Nat) (c : RPS) (hp2 : r.player2_id.isSome) :
      Step r ((makeChoice r (myChoiceOf r u) u c).getD r)

/-- Rooms reachable from a `createRoom` insert through the operations. -/
inductive Reach : Room → Prop
  | created (gt : GType) (p1 : Nat) : Reach (createRoom gt p1)
  | step {r r' : Room} : Reach r → Step r r' → Reach r'

/-- The spec's outcome rule stated as a relation, independently of the
code's `winConditions` table: rock beats scissors, scissors beats paper,
paper beats rock. -/
def beatsSpec : RPS → RPS → Bool
  | .rock, .scissors => true
  | .scissors, .paper => true
  | .paper, .rock => true
  | _, _ => false

/-- The state invariant maintained by the operations: the slot/status
coupling, no cancellation path, winners only on decisive completed rooms,
and completed rock-paper-scissors rooms holding both choices. -/
def Inv (r : Room) : Prop :=
  (r.player2_id = none ↔ r.status = .waiting) ∧
  r.status ≠ .cancelled ∧
  (r.winner_id.isSome → r.status = .completed ∧ decisiveOutcome r) ∧
  (∀ p1c p2c, r.gstate = .rps p1c p2c → r.status = .completed →
    p1c.isSome ∧ p2c.isSome)

/-- A freshly created Tic-Tac-Toe room (creator 1). -/
def sampleRoom0 : Room := createRoom .tic_tac_toe 1

/-- The same room after user 2's successful join. -/
def sampleRoom1 : Room := (joinRoomCond sampleRoom0 2).getD sampleRoom0

/-- A freshly created Rock-Paper-Scissors room (creator 1). -/
def sampleRps0 : Room := createRoom .rock_paper_scissors 1

/-- The same room after user 2's successful join. -/
def sampleRps1 : Room := (joinRoomCond sampleRps0 2).getD sampleRps0

/-- The same room after player1 chose rock. -/
def sampleRps2 : Room := (makeChoice sampleRps1 (myChoiceOf sampleRps1 1) 1 .rock).getD sampleRps1

/-- An in-progress Tic-Tac-Toe room between users 1 and 2 where it is
"O"'s turn ("X" already played cell 0). -/
def npRoom : Room :=
  { player1_id := 1
    player2_id := some 2
    game_type := .tic_tac_toe
    gstate := .ttt ![some .X, none, none, none, none, none, none, none, none] .O
    status := .in_progress
    winner_id := none }

/-- An in-progress Tic-Tac-Toe room where "X" completes the top row by
playing cell 2. -/
def cwRoom : Room :=
  { player1_id := 1
    player2_id := some 2
    game_type := .tic_tac_toe
    gstate := .ttt ![some .X, some .X, none,
                     some .O, some .O, none,
                     none, none, none] .X
    status := .in_progress
    winner_id := none }

/-- An in-progress Tic-Tac-Toe room one "X" move away from a draw:
no line can be completed by filling cell 8. -/
def drawPre : Room :=
  { player1_id := 1
    player2_id := some 2
    game_type := .tic_tac_toe
    gstate := .ttt ![some .X, some .O, some .X,
                     some .X, some .O, some .O,
                     some .O, some .X, none] .X
    status := .in_progress
    winner_id := none }

/-- The room produced by playing the final cell of `drawPre`: a completed
draw (`winner_id` null). -/
def drawRoom : Room := handleClick drawPre 1 8

/-- The spec scenario: users 1 and 2 play cells 0, 4, 1, 3, 2 in turn,
giving "X" the top row. `scenario1`..`scenario5` are the successive rooms. -/
def scenario1 : Room := handleClick sampleRoom1 1 0

/-- Second move of the scenario ("O" at cell 4). -/
def scenario2 : Room := handleClick scenario1 2 4

/-- Third move of the scenario ("X" at cell 1). -/
def scenario3 : Room := handleClick scenario2 1 1

/-- Fourth move of the scenario ("O" at cell 3). -/
def scenario4 : Room := handleClick scenario3 2 3

/-- Final move of the scenario ("X" at cell 2, completing the top row). -/
def scenario5 : Room := handleClick scenario4 1 2

lemma handleClick_ttt (room : Room) (b : Board) (t : Symbol) (u : Nat) (i : Fin 9)
    (hg : room.gstate = .ttt b t) :
    handleClick room u i = tttStep room b t u i := by
  unfold handleClick
  rw [hg]

lemma handleClick_rps (room : Room) (p1c p2c : Option RPS) (u : Nat) (i : Fin 9)
    (hg : room.gstate = .rps p1c p2c) :
    handleClick room u i = room := by
  unfold handleClick
  rw [hg]

lemma tttStep_guard (room : Room) (b : Board) (t : Symbol) (u : Nat) (i : Fin 9)
    (h : (b i).isSome ∨ room.winner_id.isSome ∨
      ((t = .X ∧ u ≠ room.player1_id) ∨ (t = .O ∧ u = room.player1_id)) ∨
      room.status ≠ .in_progress) :
    tttStep room b t u i = room := by
  unfold tttStep
  split_ifs with h1 h2 h3 <;> try rfl
  tauto

lemma tttStep_accepted (room : Room) (b : Board) (t : Symbol) (u : Nat) (i : Fin 9)
    (h1 : b i = none) (h2 : room.winner_id = none)
    (h3 : ¬((t = .X ∧ u ≠ room.player1_id) ∨ (t = .O ∧ u = room.player1_id)))
    (h4 : room.status = .in_progress) :
    tttStep room b t u i =
      match checkWinner (Function.update b i (some t)) with
      | some s =>
          { room with
              gstate := .ttt (Function.update b i (some t)) t.flip
              status := .completed
              winner_id := if s = .X then some room.player1_id else room.player2_id }
      | none =>
          if ∀ j, ((Function.update b i (some t)) j).isSome then
            { room with
                gstate := .ttt (Function.update b i (some t)) t.flip
                status := .completed }
          else
            { room with gstate := .ttt (Function.update b i (some t)) t.flip } := by
  unfold tttStep
  rw [if_neg (by simp [h1, h2]), if_neg h3, if_neg (by simp [h4])]

/-- C7: every illegal Tic-Tac-Toe click — occupied cell, winner already
recorded, out of turn (player1 owns "X", every other user "O"), or room
not in progress — leaves the room unchanged with no error surfaced; and
the identity check only separates player1 from everyone else, so two users
other than player1 are treated identically. -/
theorem handleClick_illegal_ignored (r : Room) (u u' : Nat) (i : Fin 9)
    (b : Board) (t : Symbol) (hg : r.gstate = .ttt b t) :
    ((b i).isSome → handleClick r u i = r) ∧
    (r.winner_id.isSome → handleClick r u i = r) ∧
    ((t = .X ∧ u ≠ r.player1_id) ∨ (t = .O ∧ u = r.player1_id) →
      handleClick r u i = r) ∧
    (r.status ≠ .in_progress → handleClick r u i = r) ∧
    (u ≠ r.player1_id → u' ≠ r.player1_id →
      handleClick r u i = handleClick r u' i) := by
  rw [handleClick_ttt r b t u i hg, handleClick_ttt r b t u' i hg]
  refine ⟨fun h => tttStep_guard _ _ _ _ _ (by tauto),
    fun h => tttStep_guard _ _ _ _ _ (by tauto),
    fun h => tttStep_guard _ _ _ _ _ (by tauto),
    fun h => tttStep_guard _ _ _ _ _ (by tauto),
    fun hu hu' => ?_⟩
  unfold tttStep
  have e : ((t = .X ∧ u ≠ r.player1_id) ∨ (t = .O ∧ u = r.player1_id)) ↔
      ((t = .X ∧ u' ≠ r.player1_id) ∨ (t = .O ∧ u' = r.player1_id)) := by
    tauto
  rw [if_congr Iff.rfl rfl (if_congr e rfl rfl)]

theorem handleClick_illegal_ignored_witness :
    handleClick npRoom 2 0 = npRoom ∧ handleClick npRoom 1 3 = npRoom := by
  have h := handleClick_illegal_ignored npRoom 2 1 0
    ![some .X, none, none, none, none, none, none, none, none] .O rfl
  have h' := handleClick_illegal_ignored npRoom 1 1 3
    ![some .X, none, none, none, none, none, none, none, none] .O rfl
  exact ⟨h.1 (by decide), h'.2.2.1 (by decide)⟩

/-- C7 fails as stated: a user who is neither player1 nor player2 clicking
an empty cell of an in-progress room when it is "O"'s turn is not ignored —
the room state changes. -/
theorem handleClick_nonparticipant_counterexample :
    npRoom.player1_id = 1 ∧ npRoom.player2_id = some 2 ∧
    npRoom.status = .in_progress ∧ npRoom.winner_id = none ∧
    handleClick npRoom 3 4 ≠ npRoom := by
  refine ⟨rfl, rfl, rfl, rfl, ?_⟩
  decide

lemma handleClick_frame (r : Room) (u : Nat) (i : Fin 9)
    (b : Board) (t : Symbol) (hg : r.gstate = .ttt b t) :
    (∀ j s, b j = some s → tttBoardOf (handleClick r u i) j = some s) ∧
    (handleClick r u i ≠ r →
      b i = none ∧
      tttBoardOf (handleClick r u i) = Function.update b i (some t) ∧
      tttTurnOf (handleClick r u i) = t.flip) := by
  rw [handleClick_ttt r b t u i hg]
  by_cases hga : (b i).isSome ∨ r.winner_id.isSome ∨
      ((t = .X ∧ u ≠ r.player1_id) ∨ (t = .O ∧ u = r.player1_id)) ∨
      r.status ≠ .in_progress
  · rw [tttStep_guard _ _ _ _ _ hga]
    exact ⟨fun j s hjs => by simp [tttBoardOf, hg, hjs], fun hne => absurd rfl hne⟩
  · have hbie : b i = none := by
      rcases hb : b i with _ | s
      · rfl
      · exact absurd (Or.inl (by simp [hb])) hga
    have hwin : r.winner_id = none := by
      rcases hw : r.winner_id with _ | w
      · rfl
      · exact absurd (Or.inr (Or.inl (by simp [hw]))) hga
    have hturn : ¬((t = .X ∧ u ≠ r.player1_id) ∨ (t = .O ∧ u = r.player1_id)) :=
      fun h => hga (Or.inr (Or.inr (Or.inl h)))
    have hst : r.status = .in_progress := by
      by_contra hne
      exact hga (Or.inr (Or.inr (Or.inr hne)))
    rw [tttStep_accepted r b t u i hbie hwin hturn hst]
    have hboard : ∀ j s, b j = some s → Function.update b i (some t) j = some s := by
      intro j s hjs
      rcases eq_or_ne j i with hji | hji
      · rw [hji] at hjs
        rw [hjs] at hbie
        exact absurd hbie (by simp)
      · rwa [Function.update_noteq hji]
    split
    · exact ⟨fun j s hjs => by simpa [tttBoardOf] using hboard j s hjs,
        fun _ => ⟨hbie, by simp [tttBoardOf], by simp [tttTurnOf]⟩⟩
    · split
      · exact ⟨fun j s hjs => by simpa [tttBoardOf] using hboard j s hjs,
          fun _ => ⟨hbie, by simp [tttBoardOf], by simp [tttTurnOf]⟩⟩
      · exact ⟨fun j s hjs => by simpa [tttBoardOf] using hboard j s hjs,
          fun _ => ⟨hbie, by simp [tttBoardOf], by simp [tttTurnOf]⟩⟩

/-- C4: a Tic-Tac-Toe click never erases a mark (every marked cell of the
board survives), a click that changes the room wrote exactly the clicked
previously-empty cell with the moving symbol and flipped the turn, and a
fresh room starts with the empty board and "X" to move. -/
theorem ttt_board_monotone_turn_alternates (r : Room) (u : Nat) (i : Fin 9)
    (b : Board) (t : Symbol) (hg : r.gstate = .ttt b t) :
    (∀ j s, b j = some s → tttBoardOf (handleClick r u i) j = some s) ∧
    (handleClick r u i ≠ r →
      b i = none ∧
      tttBoardOf (handleClick r u i) = Function.update b i (some t) ∧
      tttTurnOf (handleClick r u i) = t.flip) ∧
    tttTurnOf (createRoom .tic_tac_toe u) = .X ∧
    (∀ j, tttBoardOf (createRoom .tic_tac_toe u) j = none) :=
  ⟨(handleClick_frame r u i b t hg).1, (handleClick_frame r u i b t hg).2,
    rfl, fun _ => rfl⟩

theorem ttt_board_monotone_turn_alternates_witness :
    tttBoardOf scenario1 0 = some .X ∧
    tttTurnOf scenario1 = .O ∧
    tttBoardOf (handleClick scenario1 2 4) 0 = some .X := by
  have h1 := ttt_board_monotone_turn_alternates sampleRoom1 1 0
    (fun _ => none) .X rfl
  have hne : handleClick sampleRoom1 1 0 ≠ sampleRoom1 := by decide
  have h2 := ttt_board_monotone_turn_alternates scenario1 2 4
    (Function.update (fun _ => none) 0 (some .X)) .O rfl
  refine ⟨?_, ?_, ?_⟩
  · decide
  · exact (h1.2.1 hne).2.2
  · exact h2.1 0 .X (by simp [Function.update_apply])

/-- C2: an accepted Tic-Tac-Toe move classifies the new board through
`checkWinner` over the eight lines: a winning symbol completes the room
with the symbol's owner as winner ("X" is player1, "O" player2); a full
board without winner completes the room with `winner_id` left null; and
otherwise the room stays in progress with no winner. -/
theorem ttt_terminal_classification (r : Room) (u q : Nat) (i : Fin 9)
    (b : Board) (t : Symbol) (hg : r.gstate = .ttt b t)
    (hempty : b i = none) (hw : r.winner_id = none)
    (hst : r.status = .in_progress)
    (hturn : (t = .X ∧ u = r.player1_id) ∨ (t = .O ∧ u ≠ r.player1_id))
    (hp2 : r.player2_id = some q) :
    (∀ s, checkWinner (Function.update b i (some t)) = some s →
      (handleClick r u i).status = .completed ∧
      (handleClick r u i).winner_id = some (if s = .X then r.player1_id else q)) ∧
    (checkWinner (Function.update b i (some t)) = none →
      (∀ j, ((Function.update b i (some t)) j).isSome) →
      (handleClick r u i).status = .completed ∧
      (handleClick r u i).winner_id = none) ∧
    (checkWinner (Function.update b i (some t)) = none →
      ¬(∀ j, ((Function.update b i (some t)) j).isSome) →
      (handleClick r u i).status = .in_progress ∧
      (handleClick r u i).winner_id = none) := by
  have hturn' : ¬((t = .X ∧ u ≠ r.player1_id) ∨ (t = .O ∧ u = r.player1_id)) := by
    rcases hturn with ⟨hx, hu⟩ | ⟨ho, hu⟩ <;> rintro (⟨h1, h2⟩ | ⟨h1, h2⟩) <;> simp_all
  rw [handleClick_ttt r b t u i hg, tttStep_accepted r b t u i hempty hw hturn' hst]
  refine ⟨fun s hs => ?_, fun hnone hfull => ?_, fun hnone hnfull => ?_⟩
  · rw [hs]
    refine ⟨rfl, ?_⟩
    rcases s with _ | _ <;> simp [hp2]
  · rw [hnone, if_pos hfull]
    exact ⟨rfl, hw⟩
  · rw [hnone, if_neg hnfull]
    exact ⟨hst, hw⟩

theorem ttt_terminal_classification_witness :
    (handleClick cwRoom 1 2).status = .completed ∧
    (handleClick cwRoom 1 2).winner_id = some 1 ∧
    drawRoom.status = .completed ∧ drawRoom.winner_id = none := by
  have h := ttt_terminal_classification cwRoom 1 2 2
    ![some .X, some .X, none, some .O, some .O, none, none, none, none] .X
    rfl (by decide) rfl rfl (Or.inl ⟨rfl, rfl⟩) rfl
  have hwin := h.1 .X (by decide)
  have h' := ttt_terminal_classification drawPre 1 2 8
    ![some .X, some .O, some .X, some .X, some .O, some .O, some .O, some .X, none] .X
    rfl (by decide) rfl rfl (Or.inl ⟨rfl, rfl⟩) rfl
  have hdraw := h'.2.1 (by decide) (by decide)
  exact ⟨hwin.1, by simpa using hwin.2, hdraw.1, hdraw.2⟩

lemma markCount_update (b : Board) (i : Fin 9) (t : Symbol) (h : b i = none) :
    markCount (Function.update b i (some t)) = markCount b + 1 := by
  unfold markCount
  have he : (Finset.univ.filter fun j => ((Function.update b i (some t)) j).isSome)
      = insert i (Finset.univ.filter fun j => (b j).isSome) := by
    ext j
    rcases eq_or_ne j i with hji | hji
    · subst hji
      simp [Function.update_same]
    · simp [Function.update_noteq hji, hji]
  rw [he, Finset.card_insert_of_not_mem (by simp [h])]

/-- C9: game_state never regresses. A Tic-Tac-Toe click keeps every mark
already on the board, and a click that changes the room adds exactly one
mark; an accepted Rock-Paper-Scissors choice write keeps the opponent's
recorded slot exactly as persisted while filling only the caller's slot. -/
theorem moves_never_regress (r : Room) (u : Nat) (i : Fin 9) (c : RPS)
    (myc : Option RPS) :
    (∀ b t, r.gstate = .ttt b t →
      (∀ j s, b j = some s → tttBoardOf (handleClick r u i) j = some s) ∧
      (handleClick r u i ≠ r →
        markCount (tttBoardOf (handleClick r u i)) = markCount b + 1)) ∧
    (∀ p1c p2c r', r.gstate = .rps p1c p2c → makeChoice r myc u c = some r' →
      (u = r.player1_id → r'.gstate = .rps (some c) p2c) ∧
      (u ≠ r.player1_id → r'.gstate = .rps p1c (some c))) := by
  constructor
  · intro b t hg
    have hf := handleClick_frame r u i b t hg
    refine ⟨hf.1, fun hne => ?_⟩
    obtain ⟨hbie, hb', _⟩ := hf.2 hne
    rw [hb', markCount_update b i t hbie]
  · intro p1c p2c r' hg hmk
    unfold makeChoice at hmk
    rcases hmyc : myc.isSome with _ | _
    · rw [hmyc] at hmk
      rw [hg] at hmk
      simp only [Bool.false_eq_true, if_false, Option.some.injEq] at hmk
      subst hmk
      constructor
      · intro hu
        unfold rpsWrite
        rcases p2c with _ | oc <;> simp [hu]
        split_ifs <;> rfl
      · intro hu
        unfold rpsWrite
        rcases p1c with _ | oc <;> simp [hu]
        split_ifs <;> rfl
    · rw [hmyc] at hmk
      simp at hmk

theorem moves_never_regress_witness :
    markCount (tttBoardOf drawRoom) = markCount (tttBoardOf drawPre) + 1 ∧
    (makeChoice sampleRps2 none 2 .paper).map Room.gstate =
      some (.rps (some .rock) (some .paper)) := by
  constructor
  · have h := moves_never_regress drawPre 1 8 .paper none
    exact (h.1 _ _ rfl).2 (by decide)
  · have h2 := moves_never_regress sampleRps2 2 0 .paper none
    rcases hmk : makeChoice sampleRps2 none 2 .paper with _ | r'
    · exact absurd hmk (by decide)
    · have hgs := (h2.2 _ _ r' rfl hmk).2 (by decide)
      simp [hgs]

/-- C1: on a waiting room (player2 null), the first join attempt's guarded
update succeeds — setting player2 to the joiner and status to in_progress
and nothing else — while a second attempt against the updated row matches
zero rows, changes nothing, and surfaces the conflict (alert plus list
refresh); so of two racing join attempts exactly one succeeds and player2
is written exactly once. -/
theorem joinRoom_race (db : Room) (a b : Nat)
    (ha : a ≠ db.player1_id) (hb : b ≠ db.player1_id)
    (h2 : db.player2_id = none) :
    joinRoomClient db db a =
      ({ db with player2_id := some a, status := .in_progress }, .joined) ∧
    joinRoomCond { db with player2_id := some a, status := .in_progress } b =
      none ∧
    joinRoomClient db { db with player2_id := some a, status := .in_progress } b =
      ({ db with player2_id := some a, status := .in_progress },
        .conflictRefresh) := by
  refine ⟨?_, ?_, ?_⟩
  · simp [joinRoomClient, joinRoomCond, ha, h2]
  · simp [joinRoomCond]
  · simp [joinRoomClient, joinRoomCond, hb, h2]

theorem joinRoom_race_witness :
    joinRoomClient sampleRoom0 sampleRoom0 2 =
      ({ sampleRoom0 with player2_id := some 2, status := .in_progress },
        .joined) ∧
    joinRoomClient sampleRoom0
        { sampleRoom0 with player2_id := some 2, status := .in_progress } 3 =
      ({ sampleRoom0 with player2_id := some 2, status := .in_progress },
        .conflictRefresh) := by
  have h := joinRoom_race sampleRoom0 2 3 (by decide) (by decide) rfl
  exact ⟨h.1, h.2.2⟩

lemma rpsWrite_p1 (room : Room) (p1c p2c : Option RPS) (u : Nat) (c : RPS)
    (hu : u = room.player1_id) :
    rpsWrite room p1c p2c u c =
      match p2c with
      | none => { room with gstate := .rps (some c) p2c }
      | some oc =>
          if c = oc then
            { room with gstate := .rps (some c) p2c, status := .completed }
          else
            { room with
                gstate := .rps (some c) p2c
                status := .completed
                winner_id :=
                  if winConditions c = oc then some room.player1_id
                  else room.player2_id } := by
  unfold rpsWrite
  simp [hu]

lemma rpsWrite_p2 (room : Room) (p1c p2c : Option RPS) (u : Nat) (c : RPS)
    (hu : u ≠ room.player1_id) :
    rpsWrite room p1c p2c u c =
      match p1c with
      | none => { room with gstate := .rps p1c (some c) }
      | some oc =>
          if oc = c then
            { room with gstate := .rps p1c (some c), status := .completed }
          else
            { room with
                gstate := .rps p1c (some c)
                status := .completed
                winner_id :=
                  if winConditions oc = c then some room.player1_id
                  else room.player2_id } := by
  unfold rpsWrite
  simp [hu]

lemma makeChoice_none (r : Room) (p1c p2c : Option RPS) (u : Nat) (c : RPS)
    (hg : r.gstate = .rps p1c p2c) :
    makeChoice r none u c = some (rpsWrite r p1c p2c u c) := by
  unfold makeChoice
  rw [hg]
  rfl

/-- C3: with player1's choice persisted and player2 answering, every one of
the 9 choice combinations completes the room, equal choices leave the
winner null, and distinct choices crown exactly the player whose choice
dominates per the cyclic rule rock > scissors > paper > rock. -/
theorem rps_cyclic_dominance (r : Room) (c1 c2 : RPS) (u : Nat)
    (hg : r.gstate = .rps (some c1) none)
    (hu : u ≠ r.player1_id) (hw : r.winner_id = none) :
    (makeChoice r none u c2).map Room.status = some .completed ∧
    (makeChoice r none u c2).map Room.winner_id =
      some (if c1 = c2 then none
        else if beatsSpec c1 c2 then some r.player1_id else r.player2_id) := by
  rw [makeChoice_none r (some c1) none u c2 hg, rpsWrite_p2 r (some c1) none u c2 hu]
  cases c1 <;> cases c2 <;>
    simp [winConditions, beatsSpec, hw]

theorem rps_cyclic_dominance_witness :
    (makeChoice sampleRps2 none 2 .scissors).map Room.winner_id =
      some (some 1) ∧
    (makeChoice sampleRps2 none 2 .rock).map Room.winner_id = some none ∧
    (makeChoice sampleRps2 none 2 .paper).map Room.winner_id = some (some 2) ∧
    (makeChoice sampleRps2 none 2 .paper).map Room.status =
      some .completed := by
  have h1 := rps_cyclic_dominance sampleRps2 .rock .scissors 2 rfl (by decide) rfl
  have h2 := rps_cyclic_dominance sampleRps2 .rock .rock 2 rfl (by decide) rfl
  have h3 := rps_cyclic_dominance sampleRps2 .rock .paper 2 rfl (by decide) rfl
  refine ⟨?_, ?_, ?_, h3.1⟩
  · rw [h1.2]
    decide
  · rw [h2.2]
    decide
  · rw [h3.2]
    decide

/-- C5: `makeChoice` is rejected with no write when the caller has already
chosen; an accepted write fills exactly the caller's slot and carries the
opponent's persisted slot through unchanged; when the opponent's persisted
slot is populated the same write completes the room with the outcome
computed from that persisted choice, and otherwise the status stays
in_progress with only the caller's choice recorded. -/
theorem makeChoice_guard_and_write (r : Room) (p1c p2c myc : Option RPS)
    (u : Nat) (c : RPS)
    (hg : r.gstate = .rps p1c p2c) (hst : r.status = .in_progress) :
    (myc.isSome → makeChoice r myc u c = none) ∧
    (myc = none →
      (makeChoice r myc u c).map (fun r' => myChoiceOf r' u) = some (some c) ∧
      (makeChoice r myc u c).map (fun r' => otherChoiceOf r' u) =
        some (otherChoiceOf r u) ∧
      (otherChoiceOf r u = none →
        (makeChoice r myc u c).map Room.status = some .in_progress ∧
        (makeChoice r myc u c).map Room.winner_id = some r.winner_id) ∧
      (∀ oc, otherChoiceOf r u = some oc →
        (makeChoice r myc u c).map Room.status = some .completed ∧
        (makeChoice r myc u c).map Room.winner_id =
          some (if (if u = r.player1_id then c else oc) =
              (if u = r.player1_id then oc else c) then r.winner_id
            else if winConditions (if u = r.player1_id then c else oc) =
                (if u = r.player1_id then oc else c) then some r.player1_id
            else r.player2_id))) := by
  constructor
  · intro hmy
    unfold makeChoice
    rw [if_pos hmy]
  · intro hmy
    subst hmy
    rw [makeChoice_none r p1c p2c u c hg]
    by_cases hu : u = r.player1_id
    · have hoc : otherChoiceOf r u = p2c := by simp [otherChoiceOf, hg, hu]
      rw [rpsWrite_p1 r p1c p2c u c hu, hoc]
      rcases p2c with _ | oc
      · simp [myChoiceOf, otherChoiceOf, hu, hst]
      · by_cases hco : c = oc <;>
          simp [myChoiceOf, otherChoiceOf, hu, hco]
    · have hoc : otherChoiceOf r u = p1c := by simp [otherChoiceOf, hg, hu]
      rw [rpsWrite_p2 r p1c p2c u c hu, hoc]
      rcases p1c with _ | oc
      · simp [myChoiceOf, otherChoiceOf, hu, hst]
      · by_cases hco : oc = c <;>
          simp [myChoiceOf, otherChoiceOf, hu, hco]

theorem makeChoice_guard_and_write_witness :
    makeChoice sampleRps2 (some .rock) 1 .paper = none ∧
    (makeChoice sampleRps1 none 1 .rock).map Room.status =
      some .in_progress ∧
    (makeChoice sampleRps2 none 2 .scissors).map Room.status =
      some .completed := by
  have ha := makeChoice_guard_and_write sampleRps2 (some .rock) none
    (some .rock) 1 .paper rfl rfl
  have hb := makeChoice_guard_and_write sampleRps1 none none none 1 .rock
    rfl rfl
  have hc := makeChoice_guard_and_write sampleRps2 (some .rock) none none 2
    .scissors rfl rfl
  exact ⟨ha.1 rfl, ((hb.2 rfl).2.2.1 rfl).1, ((hc.2 rfl).2.2.2 .rock rfl).1⟩

/-- C10: the dashboard win rate is total — exactly 0 when no game was
played (the division is guarded away), and the rounded percentage
100·games_won/games_played otherwise. -/
theorem winRate_total (played won : Nat) :
    (played = 0 → winRate played won = 0) ∧
    (0 < played → winRate played won = round ((100 * won : ℚ) / (played : ℚ))) := by
  constructor
  · intro h
    simp [winRate, h]
  · intro h
    unfold winRate
    rw [if_pos h]
    congr 1
    ring

theorem winRate_total_witness : winRate 0 7 = 0 ∧ winRate 4 1 = 25 := by
  refine ⟨(winRate_total 0 7).1 rfl, ?_⟩
  rw [(winRate_total 4 1).2 (by norm_num)]
  have h : (100 * ((1 : ℕ) : ℚ)) / (((4 : ℕ)) : ℚ) = ((25 : ℤ) : ℚ) := by
    norm_num
  rw [h, round_intCast]

/-- C8 (amended): on a completed room each participant's handler increments
games_played by one and games_won exactly for the winner — except that the
Tic-Tac-Toe handler keys on a non-null `winner_id`, so a Tic-Tac-Toe draw
triggers no stats update at all; the Rock-Paper-Scissors handler covers
draws (games_played still incremented). -/
theorem stats_on_completion (room : Room) (u : Nat) (s : Stats) :
    (room.winner_id = none → tttOnUpdateStats room u s = s) ∧
    (∀ w, room.winner_id = some w →
      (tttOnUpdateStats room u s).games_played = s.games_played + 1 ∧
      (tttOnUpdateStats room u s).games_won =
        s.games_won + (if w = u then 1 else 0)) ∧
    (∀ c1 c2, room.status = .completed →
      room.gstate = .rps (some c1) (some c2) →
      (rpsOnUpdateStats room u s).games_played = s.games_played + 1 ∧
      (rpsOnUpdateStats room u s).games_won =
        s.games_won +
          (if c1 ≠ c2 ∧ ((u = room.player1_id ∧ winConditions c1 = c2) ∨
              (u ≠ room.player1_id ∧ winConditions c1 ≠ c2)) then 1 else 0)) ∧
    (room.status ≠ .completed → rpsOnUpdateStats room u s = s) := by
  refine ⟨fun hn => ?_, fun w hw => ?_, fun c1 c2 hst hg => ?_, fun hst => ?_⟩
  · simp [tttOnUpdateStats, hn]
  · unfold tttOnUpdateStats
    rw [hw]
    unfold updateStats
    refine ⟨rfl, ?_⟩
    by_cases hwu : w = u <;> simp [hwu]
  · unfold rpsOnUpdateStats
    rw [if_pos hst, hg]
    by_cases hcc : c1 = c2
    · subst hcc
      simp [updateStats]
    · by_cases hwin : (u = room.player1_id ∧ winConditions c1 = c2) ∨
          (u ≠ room.player1_id ∧ winConditions c1 ≠ c2) <;>
        simp [hcc, hwin, updateStats]
  · simp [rpsOnUpdateStats, hst]

theorem stats_on_completion_witness :
    tttOnUpdateStats drawRoom 2 ⟨3, 1⟩ = ⟨3, 1⟩ ∧
    (tttOnUpdateStats scenario5 1 ⟨3, 1⟩).games_played = 4 ∧
    (tttOnUpdateStats scenario5 1 ⟨3, 1⟩).games_won = 2 ∧
    (rpsOnUpdateStats (rpsWrite sampleRps2 (some .rock) none 2 .scissors)
      2 ⟨3, 1⟩).games_played = 4 := by
  have h1 := (stats_on_completion drawRoom 2 ⟨3, 1⟩).1 (by decide)
  have h2 := (stats_on_completion scenario5 1 ⟨3, 1⟩).2.1 1 (by decide)
  have h3 := (stats_on_completion
    (rpsWrite sampleRps2 (some .rock) none 2 .scissors) 2 ⟨3, 1⟩).2.2.1
    .rock .scissors (by decide) rfl
  exact ⟨h1, h2.1, by simpa using h2.2, h3.1⟩

/-- C8 fails as stated: a Tic-Tac-Toe draw is a transition to completed
(produced here by an accepted final move), yet neither participant's
handler touches the stats — games_played is not incremented. -/
theorem stats_draw_counterexample :
    drawPre.status = .in_progress ∧
    drawRoom = handleClick drawPre 1 8 ∧
    drawRoom.status = .completed ∧
    drawRoom.winner_id = none ∧
    tttOnUpdateStats drawRoom 1 ⟨0, 0⟩ = ⟨0, 0⟩ ∧
    tttOnUpdateStats drawRoom 2 ⟨0, 0⟩ = ⟨0, 0⟩ := by
  refine ⟨rfl, rfl, ?_, ?_, ?_, ?_⟩ <;> decide

lemma tttStep_cases (room : Room) (b : Board) (t : Symbol) (u : Nat) (i : Fin 9) :
    tttStep room b t u i = room ∨
    (b i = none ∧ room.winner_id = none ∧ room.status = .in_progress ∧
      tttStep room b t u i =
        match checkWinner (Function.update b i (some t)) with
        | some s =>
            { room with
                gstate := .ttt (Function.update b i (some t)) t.flip
                status := .completed
                winner_id := if s = .X then some room.player1_id else room.player2_id }
        | none =>
            if ∀ j, ((Function.update b i (some t)) j).isSome then
              { room with
                  gstate := .ttt (Function.update b i (some t)) t.flip
                  status := .completed }
            else
              { room with gstate := .ttt (Function.update b i (some t)) t.flip }) := by
  by_cases hga : (b i).isSome ∨ room.winner_id.isSome ∨
      ((t = .X ∧ u ≠ room.player1_id) ∨ (t = .O ∧ u = room.player1_id)) ∨
      room.status ≠ .in_progress
  · exact Or.inl (tttStep_guard _ _ _ _ _ hga)
  · have hbie : b i = none := by
      rcases hb : b i with _ | s
      · rfl
      · exact absurd (Or.inl (by simp [hb])) hga
    have hwin : room.winner_id = none := by
      rcases hw : room.winner_id with _ | w
      · rfl
      · exact absurd (Or.inr (Or.inl (by simp [hw]))) hga
    have hturn : ¬((t = .X ∧ u ≠ room.player1_id) ∨ (t = .O ∧ u = room.player1_id)) :=
      fun hx => hga (Or.inr (Or.inr (Or.inl hx)))
    have hst : room.status = .in_progress := by
      by_contra hne
      exact hga (Or.inr (Or.inr (Or.inr hne)))
    exact Or.inr ⟨hbie, hwin, hst, tttStep_accepted room b t u i hbie hwin hturn hst⟩

lemma joinRoomCond_open (r : Room) (u : Nat) (hp : r.player2_id = none) :
    joinRoomCond r u =
      some { r with player2_id := some u, status := .in_progress } := by
  unfold joinRoomCond
  rw [if_pos hp]

lemma joinRoomCond_taken (r : Room) (u v : Nat) (hp : r.player2_id = some v) :
    joinRoomCond r u = none := by
  unfold joinRoomCond
  rw [if_neg (by simp [hp])]

lemma status_cases (r : Room) (hInv : Inv r) (hp2 : r.player2_id.isSome) :
    r.status = .in_progress ∨ r.status = .completed := by
  rcases hsv : r.status
  case waiting =>
    have := hInv.1.mpr hsv
    rw [this] at hp2
    simp at hp2
  case in_progress => exact Or.inl rfl
  case completed => exact Or.inr rfl
  case cancelled => exact absurd hsv hInv.2.1

lemma rps_pre (r : Room) (hInv : Inv r) (hp2 : r.player2_id.isSome)
    (p1c p2c : Option RPS) (hg : r.gstate = .rps p1c p2c)
    (hslot : p1c = none ∨ p2c = none) :
    r.status = .in_progress ∧ r.winner_id = none := by
  have hst : r.status = .in_progress := by
    rcases status_cases r hInv hp2 with h | h
    · exact h
    · exfalso
      have hb := hInv.2.2.2 p1c p2c hg h
      rcases hslot with hs | hs <;> rw [hs] at hb <;> simp at hb
  refine ⟨hst, ?_⟩
  rcases hwv : r.winner_id with _ | w
  · rfl
  · exfalso
    have hc := (hInv.2.2.1 (by simp [hwv])).1
    rw [hst] at hc
    exact absurd hc (by decide)

lemma winner_none_of_not_completed (r : Room) (hInv : Inv r)
    (hst : r.status ≠ .completed) : r.winner_id = none := by
  rcases hwv : r.winner_id with _ | w
  · rfl
  · exact absurd (hInv.2.2.1 (by simp [hwv])).1 hst

lemma inv_created (gt : GType) (p1 : Nat) : Inv (createRoom gt p1) := by
  refine ⟨by simp [createRoom], by simp [createRoom], by simp [createRoom], ?_⟩
  intro p1c p2c hg hst
  simp [createRoom] at hst

lemma inv_join (r : Room) (u : Nat) (h : Inv r) :
    Inv ((joinRoomCond r u).getD r) := by
  rcases hp : r.player2_id with _ | v
  · rw [joinRoomCond_open r u hp]
    simp only [Option.getD_some]
    have hw : r.status = .waiting := h.1.mp hp
    have hwin : r.winner_id = none :=
      winner_none_of_not_completed r h (by rw [hw]; decide)
    refine ⟨by simp, by simp, by simp [hwin], ?_⟩
    intro p1c p2c hg hst
    simp at hst
  · rw [joinRoomCond_taken r u v hp]
    simp only [Option.getD_none]
    exact h

lemma inv_ttt (r : Room) (u : Nat) (i : Fin 9) (h : Inv r) :
    Inv (handleClick r u i) := by
  rcases hg : r.gstate with ⟨b, t⟩ | ⟨p1c, p2c⟩
  · rw [handleClick_ttt r b t u i hg]
    rcases tttStep_cases r b t u i with heq | ⟨hbie, hwin, hst, heq⟩
    · rw [heq]
      exact h
    · rw [heq]
      have hp2 : r.player2_id ≠ none := by
        intro hp
        have hw := h.1.mp hp
        rw [hst] at hw
        exact absurd hw (by decide)
      rcases hcw : checkWinner (Function.update b i (some t)) with _ | s
      · simp only [hcw]
        split_ifs with hfull
        · exact ⟨by simp [hp2], by simp, by simp [hwin], fun a b hga => by simp at hga⟩
        · exact ⟨by simp [hp2, hst], by simp [hst], by simp [hwin],
            fun a b hga => by simp at hga⟩
      · simp only [hcw]
        refine ⟨by simp [hp2], by simp, ?_, fun a b hga => by simp at hga⟩
        intro _
        refine ⟨rfl, ?_⟩
        exact ⟨s, hcw, rfl⟩
  · rw [handleClick_rps r p1c p2c u i hg]
    exact h

lemma makeChoice_ttt_none (r : Room) (b : Board) (t : Symbol) (u : Nat) (c : RPS)
    (hg : r.gstate = .ttt b t) :
    makeChoice r (myChoiceOf r u) u c = none := by
  have hmy : myChoiceOf r u = none := by simp [myChoiceOf, hg]
  rw [hmy]
  unfold makeChoice
  rw [hg]
  rfl

lemma makeChoice_some_rejected (r : Room) (mc : RPS) (u : Nat) (c : RPS) :
    makeChoice r (some mc) u c = none := by
  unfold makeChoice
  rfl

lemma inv_rps (r : Room) (u : Nat) (c : RPS) (h : Inv r)
    (hp2 : r.player2_id.isSome) :
    Inv ((makeChoice r (myChoiceOf r u) u c).getD r) := by
  rcases hg : r.gstate with ⟨b, t⟩ | ⟨p1c, p2c⟩
  · rw [makeChoice_ttt_none r b t u c hg]
    simp only [Option.getD_none]
    exact h
  · have hp2ne : r.player2_id ≠ none := by
      intro hp
      rw [hp] at hp2
      simp at hp2
    by_cases hu : u = r.player1_id
    · rcases hp1 : p1c with _ | mc
      · have hpre := rps_pre r h hp2 p1c p2c hg (Or.inl hp1)
        have hmy : myChoiceOf r u = none := by simp [myChoiceOf, hg, hu, hp1]
        rw [hmy, makeChoice_none r p1c p2c u c hg]
        simp only [Option.getD_some]
        rw [rpsWrite_p1 r p1c p2c u c hu]
        rcases hp2c : p2c with _ | oc
        · refine ⟨by simp [hp2ne, hpre.1], by simp [hpre.1], by simp [hpre.2], ?_⟩
          intro a bb hga hst
          simp [hpre.1] at hst
        · by_cases hco : c = oc
          · simp only [if_pos hco]
            refine ⟨by simp [hp2ne], by simp, by simp [hpre.2], ?_⟩
            intro a bb hga hst
            simp only [GState.rps.injEq] at hga
            obtain ⟨ha, hb⟩ := hga
            rw [← ha, ← hb]
            simp
          · simp only [if_neg hco]
            refine ⟨by simp [hp2ne], by simp, ?_, ?_⟩
            · intro _
              exact ⟨rfl, ⟨c, oc, rfl, rfl, hco, rfl⟩⟩
            · intro a bb hga hst
              simp only [GState.rps.injEq] at hga
              obtain ⟨ha, hb⟩ := hga
              rw [← ha, ← hb]
              simp
      · have hmy : myChoiceOf r u = some mc := by simp [myChoiceOf, hg, hu, hp1]
        rw [hmy, makeChoice_some_rejected r mc u c]
        simp only [Option.getD_none]
        exact h
    · rcases hp2c : p2c with _ | mc
      · have hpre := rps_pre r h hp2 p1c p2c hg (Or.inr hp2c)
        have hmy : myChoiceOf r u = none := by simp [myChoiceOf, hg, hu, hp2c]
        rw [hmy, makeChoice_none r p1c p2c u c hg]
        simp only [Option.getD_some]
        rw [rpsWrite_p2 r p1c p2c u c hu]
        rcases hp1 : p1c with _ | oc
        · refine ⟨by simp [hp2ne, hpre.1], by simp [hpre.1], by simp [hpre.2], ?_⟩
          intro a bb hga hst
          simp [hpre.1] at hst
        · by_cases hco : oc = c
          · simp only [if_pos hco]
            refine ⟨by simp [hp2ne], by simp, by simp [hpre.2], ?_⟩
            intro a bb hga hst
            simp only [GState.rps.injEq] at hga
            obtain ⟨ha, hb⟩ := hga
            rw [← ha, ← hb]
            simp
          · simp only [if_neg hco]
            refine ⟨by simp [hp2ne], by simp, ?_, ?_⟩
            · intro _
              exact ⟨rfl, ⟨oc, c, rfl, rfl, hco, rfl⟩⟩
            · intro a bb hga hst
              simp only [GState.rps.injEq] at hga
              obtain ⟨ha, hb⟩ := hga
              rw [← ha, ← hb]
              simp
      · have hmy : myChoiceOf r u = some mc := by simp [myChoiceOf, hg, hu, hp2c]
        rw [hmy, makeChoice_some_rejected r mc u c]
        simp only [Option.getD_none]
        exact h

lemma reach_inv (r : Room) (h : Reach r) : Inv r := by
  induction h with
  | created gt p1 => exact inv_created gt p1
  | step hr hs ih =>
      cases hs with
      | join u hu => exact inv_join _ u ih
      | tttMove u i hp2 => exact inv_ttt _ u i ih
      | rpsMove u c hp2 => exact inv_rps _ u c ih hp2

/-- C6: in every reachable room state, winner_id is non-null only when the
status is completed and the game-specific terminal check found a decisive
(non-draw) outcome naming that winner; and along every operation a set
winner is never changed while a winner is newly set only on the transition
from in_progress into completed. -/
theorem winner_decisive_and_once (r : Room) (h : Reach r) :
    (r.winner_id.isSome → r.status = .completed ∧ decisiveOutcome r) ∧
    (∀ r', Step r r' →
      (∀ w, r.winner_id = some w → r'.winner_id = some w) ∧
      (r.winner_id = none → r'.winner_id.isSome →
        r.status = .in_progress ∧ r'.status = .completed)) := by
  have hInv : Inv r := reach_inv r h
  refine ⟨hInv.2.2.1, ?_⟩
  intro r' hs
  cases hs with
  | join u hu =>
      rcases hp : r.player2_id with _ | v
      · rw [joinRoomCond_open r u hp]
        simp only [Option.getD_some]
        have hw : r.status = .waiting := hInv.1.mp hp
        have hwin : r.winner_id = none :=
          winner_none_of_not_completed r hInv (by rw [hw]; decide)
        constructor
        · intro w hwq
          rw [hwin] at hwq
          exact absurd hwq (by simp)
        · intro _ hiso
          simp [hwin] at hiso
      · rw [joinRoomCond_taken r u v hp]
        simp only [Option.getD_none]
        exact ⟨fun w hw => hw, fun hn hiso => by rw [hn] at hiso; simp at hiso⟩
  | tttMove u i hp2 =>
      rcases hg : r.gstate with ⟨b, t⟩ | ⟨p1c, p2c⟩
      · rw [handleClick_ttt r b t u i hg]
        rcases tttStep_cases r b t u i with heq | ⟨hbie, hwin, hst, heq⟩
        · rw [heq]
          exact ⟨fun w hw => hw, fun hn hiso => by rw [hn] at hiso; simp at hiso⟩
        · rw [heq]
          constructor
          · intro w hw
            rw [hwin] at hw
            exact absurd hw (by simp)
          · intro _ hiso
            rcases hcw : checkWinner (Function.update b i (some t)) with _ | s
            · simp only [hcw] at hiso ⊢
              split_ifs at hiso ⊢ with hfull
              · exact ⟨hst, by trivial⟩
              · simp [hwin] at hiso
            · simp only [hcw]
              exact ⟨hst, by trivial⟩
      · rw [handleClick_rps r p1c p2c u i hg]
        exact ⟨fun w hw => hw, fun hn hiso => by rw [hn] at hiso; simp at hiso⟩
  | rpsMove u c hp2 =>
      rcases hg : r.gstate with ⟨b, t⟩ | ⟨p1c, p2c⟩
      · rw [makeChoice_ttt_none r b t u c hg]
        simp only [Option.getD_none]
        exact ⟨fun w hw => hw, fun hn hiso => by rw [hn] at hiso; simp at hiso⟩
      · by_cases hu : u = r.player1_id
        · rcases hp1 : p1c with _ | mc
          · have hpre := rps_pre r hInv hp2 p1c p2c hg (Or.inl hp1)
            have hmy : myChoiceOf r u = none := by simp [myChoiceOf, hg, hu, hp1]
            rw [hmy, makeChoice_none r p1c p2c u c hg]
            simp only [Option.getD_some]
            rw [rpsWrite_p1 r p1c p2c u c hu]
            rcases hp2c : p2c with _ | oc
            · refine ⟨fun w hw => absurd hw (by simp [hpre.2]), fun _ hiso => ?_⟩
              simp [hpre.2] at hiso
            · by_cases hco : c = oc
              · refine ⟨fun w hw => absurd hw (by simp [hpre.2]),
                  fun _ hiso => ?_⟩
                simp [hpre.2, hco] at hiso
              · refine ⟨fun w hw => absurd hw (by simp [hpre.2]),
                  fun _ _ => ⟨hpre.1, ?_⟩⟩
                simp [hco]
          · have hmy : myChoiceOf r u = some mc := by
              simp [myChoiceOf, hg, hu, hp1]
            rw [hmy, makeChoice_some_rejected r mc u c]
            simp only [Option.getD_none]
            exact ⟨fun w hw => hw, fun hn hiso => by rw [hn] at hiso; simp at hiso⟩
        · rcases hp2c : p2c with _ | mc
          · have hpre := rps_pre r hInv hp2 p1c p2c hg (Or.inr hp2c)
            have hmy : myChoiceOf r u = none := by simp [myChoiceOf, hg, hu, hp2c]
            rw [hmy, makeChoice_none r p1c p2c u c hg]
            simp only [Option.getD_some]
            rw [rpsWrite_p2 r p1c p2c u c hu]
            rcases hp1 : p1c with _ | oc
            · refine ⟨fun w hw => absurd hw (by simp [hpre.2]), fun _ hiso => ?_⟩
              simp [hpre.2] at hiso
            · by_cases hco : oc = c
              · refine ⟨fun w hw => absurd hw (by simp [hpre.2]),
                  fun _ hiso => ?_⟩
                simp [hpre.2, hco] at hiso
              · refine ⟨fun w hw => absurd hw (by simp [hpre.2]),
                  fun _ _ => ⟨hpre.1, ?_⟩⟩
                simp [hco]
          · have hmy : myChoiceOf r u = some mc := by
              simp [myChoiceOf, hg, hu, hp2c]
            rw [hmy, makeChoice_some_rejected r mc u c]
            simp only [Option.getD_none]
            exact ⟨fun w hw => hw, fun hn hiso => by rw [hn] at hiso; simp at hiso⟩

theorem winner_decisive_and_once_witness :
    scenario5.status = .completed ∧ decisiveOutcome scenario5 := by
  have h0 : Reach sampleRoom0 := Reach.created .tic_tac_toe 1
  have h1 : Reach sampleRoom1 :=
    Reach.step h0 (Step.join sampleRoom0 2 (by decide))
  have h2 : Reach scenario1 :=
    Reach.step h1 (Step.tttMove sampleRoom1 1 0 (by decide))
  have h3 : Reach scenario2 :=
    Reach.step h2 (Step.tttMove scenario1 2 4 (by decide))
  have h4 : Reach scenario3 :=
    Reach.step h3 (Step.tttMove scenario2 1 1 (by decide))
  have h5 : Reach scenario4 :=
    Reach.step h4 (Step.tttMove scenario3 2 3 (by decide))
  have h6 : Reach scenario5 :=
    Reach.step h5 (Step.tttMove scenario4 1 2 (by decide))
  exact (winner_decisive_and_once scenario5 h6).1 (by decide)

end APP
